import Mathlib

/-!
# Project-domain resource controller and DNS record listing

A shallow embedding of

* `vercel/resource_project_domain.go`: `splitProjectDomainID`, and the `Read`, `Delete`
  and `ImportState` methods of `resourceProjectDomain`;
* `client/dns_record_list.go`: `Client.ListDNSRecords`.

Go strings are modelled by `String`.  A Go string is a byte sequence; the only separator
the code splits on is the single byte `/` (0x2F), which never occurs inside a multi-byte
UTF-8 sequence, so splitting a valid UTF-8 string on the byte and on the character agree.

Everything that lives outside the two source files (the remote client methods, the state
converter, the host framework's state decoding and encoding, the HTTP transport) is taken
as a parameter and never given a behaviour of its own.
-/

namespace Vercel

/-! ## Go standard library: `strings.Split` with a one-byte separator -/

/-- Go `strings.IndexByte`: position of the first occurrence of `c`; `none` stands for `-1`. -/
def indexByte (c : Char) : List Char → Option Nat
  | [] => none
  | x :: xs => if x = c then some 0 else (indexByte c xs).map (· + 1)

/-- Go `strings.Count` for a one-byte separator: the number of occurrences of `c`. -/
def countByte (c : Char) : List Char → Nat
  | [] => 0
  | x :: xs => (if x = c then 1 else 0) + countByte c xs

/-- The loop of Go `strings.genSplit` (with `sepSave = 0` and a one-byte separator):
`for i < n { m := Index(s, sep); if m < 0 { break }; a[i] = s[:m]; s = s[m+1:]; i++ }`
followed by `a[i] = s; return a[:i+1]`.  The first argument is the number of iterations
left, `n - i`. -/
def genSplitLoop (c : Char) : Nat → List Char → List (List Char)
  | 0, s => [s]
  | k + 1, s =>
    match indexByte c s with
    | none => [s]
    | some m => s.take m :: genSplitLoop c k (s.drop (m + 1))

/-- Go `strings.genSplit(s, sep, 0, -1)` for a one-byte separator:
`n = Count(s, sep) + 1`, capped at `len(s) + 1`, then the loop runs with `n--`. -/
def genSplit (s : List Char) (c : Char) : List (List Char) :=
  let n := min (countByte c s + 1) (s.length + 1)
  genSplitLoop c (n - 1) s

/-- Go `strings.Split(s, sep)` where `sep` is the one-byte string made of `sep`. -/
def stringsSplit (s : String) (sep : Char) : List String :=
  (genSplit s.data sep).map String.mk

/-! ## `splitProjectDomainID` -/

/-- The function `splitProjectDomainID`; the result is `(teamID, projectID, domain, ok)`. -/
def splitProjectDomainID (id : String) : String × String × String × Bool :=
  let attributes := stringsSplit id '/'
  if h2 : attributes.length = 2 then
    -- we have project_id/domain
    ("", attributes[0], attributes[1], true)
  else if h3 : attributes.length = 3 then
    -- we have team_id/project_id/domain
    (attributes[0], attributes[1], attributes[2], true)
  else
    ("", "", "", false)

/-! ## Host framework and client types used by the controller

The declarations below mirror types that the two source files use but do not declare.
Only the fields the source reads or writes carry any meaning here. -/

/-- The framework type `types.String`: a string value with its unknown and null flags.
The Go composite literal `types.String{Value: v}` leaves both flags `false`. -/
structure TypesString where
  Unknown : Bool := false
  Null : Bool := false
  Value : String := ""
deriving DecidableEq, Repr

/-- The framework type `types.Int64`. -/
structure TypesInt64 where
  Unknown : Bool := false
  Null : Bool := false
  Value : Int := 0
deriving DecidableEq, Repr

/-- The resource model `ProjectDomain`, one field for each attribute of the schema returned
by `GetSchema`.  The controller reads `ProjectID.Value`, `Domain.Value`, `TeamID.Value` and
passes `TeamID` on to the state converter. -/
structure ProjectDomain where
  ProjectID : TypesString
  TeamID : TypesString
  ID : TypesString
  Domain : TypesString
  Redirect : TypesString
  RedirectStatusCode : TypesInt64
  GitBranch : TypesString
deriving DecidableEq, Repr

/-- Severity of a framework diagnostic. -/
inductive Severity where
  | Error
  | Warning
deriving DecidableEq, Repr

/-- A framework diagnostic: severity, summary and detail. -/
structure Diagnostic where
  Severity : Severity
  Summary : String
  Detail : String
deriving DecidableEq, Repr

/-- The framework type `diag.Diagnostics`, a slice of diagnostics. -/
abbrev Diagnostics := List Diagnostic

/-- The framework method `Diagnostics.Contains`. -/
def Diagnostics.Contains (diags : Diagnostics) (d : Diagnostic) : Bool :=
  decide (d ∈ diags)

/-- The framework method `Diagnostics.Append`: adds the diagnostics that are not yet in the
collection, in order. -/
def Diagnostics.Append (diags : Diagnostics) (ins : List Diagnostic) : Diagnostics :=
  ins.foldl (fun acc d => if Diagnostics.Contains acc d then acc else acc ++ [d]) diags

/-- The framework method `Diagnostics.AddError(summary, detail)`. -/
def Diagnostics.AddError (diags : Diagnostics) (summary detail : String) : Diagnostics :=
  Diagnostics.Append diags [⟨Severity.Error, summary, detail⟩]

/-- The framework method `Diagnostics.HasError`. -/
def Diagnostics.HasError (diags : Diagnostics) : Bool :=
  diags.any (fun d => decide (d.Severity = Severity.Error))

/-- The client type `client.APIError`; the controller reads its `StatusCode` only. -/
structure APIError where
  StatusCode : Int
deriving DecidableEq, Repr

/-- A non-nil Go `error` as the controller observes it: the text `err.Error()` that the
verb `%s` prints, and what `errors.As(err, &apiErr)` finds (`none` when it returns false). -/
structure GoError where
  Error : String
  AsAPIError : Option APIError
deriving DecidableEq, Repr

/-- The condition `errors.As(err, &apiErr) && apiErr.StatusCode == 404`. -/
def GoError.isNotFound (err : GoError) : Bool :=
  match err.AsAPIError with
  | some apiErr => decide (apiErr.StatusCode = 404)
  | none => false

/-- A call the controller makes to code outside `resource_project_domain.go`, with the
arguments it passes.  `R` is the type `client.ProjectDomainResponse`. -/
inductive Effect (R : Type) where
  | GetProjectDomain (projectID domain teamID : String)
  | DeleteProjectDomain (projectID domain teamID : String)
  | convertResponseToProjectDomain (out : R) (teamID : TypesString)
  | StateSet (val : ProjectDomain)
  | StateRemoveResource
deriving DecidableEq, Repr

/-- What the collaborators of the controller answer.  `GetProjectDomain` and
`DeleteProjectDomain` are the methods of `r.p.client`, `convertResponseToProjectDomain` is
the state converter and `StateSet` gives the diagnostics that `resp.State.Set` returns. -/
structure Collaborators (R : Type) where
  GetProjectDomain : String → String → String → Except GoError R
  DeleteProjectDomain : String → String → String → Option GoError
  convertResponseToProjectDomain : R → TypesString → ProjectDomain
  StateSet : ProjectDomain → Diagnostics

/-- A read or delete request: what `req.State.Get(ctx, &state)` decodes, with the
diagnostics it returns. -/
structure StateRequest where
  State : ProjectDomain
  GetDiagnostics : Diagnostics

/-- What a controller method leaves behind: `resp.Diagnostics` on return and the calls it
made, in order.  Calls to `tflog.Trace` are not recorded. -/
structure Outcome (R : Type) where
  Diagnostics : Diagnostics
  Effects : List (Effect R)
deriving DecidableEq

/-! ## `resourceProjectDomain.Read`, `Delete` and `ImportState` -/

/-- The method `resourceProjectDomain.Read`; `diags0` is `resp.Diagnostics` on entry. -/
def Read {R : Type} (r : Collaborators R) (req : StateRequest) (diags0 : Diagnostics) :
    Outcome R :=
  let state := req.State
  let d1 := Diagnostics.Append diags0 req.GetDiagnostics
  if Diagnostics.HasError d1 then
    ⟨d1, []⟩
  else
    match r.GetProjectDomain state.ProjectID.Value state.Domain.Value state.TeamID.Value with
    | Except.error err =>
      ⟨Diagnostics.AddError d1 "Error reading project domain"
          ("Could not get domain " ++ state.Domain.Value ++ " for project "
            ++ state.ProjectID.Value ++ ", unexpected error: " ++ err.Error),
        [Effect.GetProjectDomain state.ProjectID.Value state.Domain.Value state.TeamID.Value]⟩
    | Except.ok out =>
      let result := r.convertResponseToProjectDomain out state.TeamID
      ⟨Diagnostics.Append d1 (r.StateSet result),
        [Effect.GetProjectDomain state.ProjectID.Value state.Domain.Value state.TeamID.Value,
         Effect.convertResponseToProjectDomain out state.TeamID,
         Effect.StateSet result]⟩

/-- The method `resourceProjectDomain.Delete`; `diags0` is `resp.Diagnostics` on entry. -/
def Delete {R : Type} (r : Collaborators R) (req : StateRequest) (diags0 : Diagnostics) :
    Outcome R :=
  let state := req.State
  let d1 := Diagnostics.Append diags0 req.GetDiagnostics
  if Diagnostics.HasError d1 then
    ⟨d1, []⟩
  else
    match r.DeleteProjectDomain state.ProjectID.Value state.Domain.Value state.TeamID.Value with
    | some err =>
      if err.isNotFound then
        -- The domain is already gone - do nothing.
        ⟨d1, [Effect.DeleteProjectDomain state.ProjectID.Value state.Domain.Value
                state.TeamID.Value]⟩
      else
        ⟨Diagnostics.AddError d1 "Error deleting project"
            ("Could not delete domain " ++ state.Domain.Value ++ " for project "
              ++ state.ProjectID.Value ++ ", unexpected error: " ++ err.Error),
          [Effect.DeleteProjectDomain state.ProjectID.Value state.Domain.Value
            state.TeamID.Value]⟩
    | none =>
      ⟨d1, [Effect.DeleteProjectDomain state.ProjectID.Value state.Domain.Value
              state.TeamID.Value,
            Effect.StateRemoveResource]⟩

/-- The detail of the error `ImportState` reports for an id it cannot split. -/
def importErrorDetail (id : String) : String :=
  "Invalid id '" ++ id ++
    "' specified. should be in format \"team_id/project_id/domain\" or \"project_id/domain\""

/-- The method `resourceProjectDomain.ImportState`; `id` is `req.ID` and `diags0` is
`resp.Diagnostics` on entry. -/
def ImportState {R : Type} (r : Collaborators R) (id : String) (diags0 : Diagnostics) :
    Outcome R :=
  let (teamID, projectID, domain, ok) := splitProjectDomainID id
  let d1 :=
    if !ok then
      Diagnostics.AddError diags0 "Error importing project domain" (importErrorDetail id)
    else diags0
  match r.GetProjectDomain projectID domain teamID with
  | Except.error err =>
    ⟨Diagnostics.AddError d1 "Error reading project domain"
        ("Could not get domain " ++ domain ++ " for project " ++ projectID
          ++ ", unexpected error: " ++ err.Error),
      [Effect.GetProjectDomain projectID domain teamID]⟩
  | Except.ok out =>
    let stringTypeTeamID : TypesString := { Value := teamID }
    let stringTypeTeamID :=
      if teamID = "" then { stringTypeTeamID with Null := true } else stringTypeTeamID
    let result := r.convertResponseToProjectDomain out stringTypeTeamID
    ⟨Diagnostics.Append d1 (r.StateSet result),
      [Effect.GetProjectDomain projectID domain teamID,
       Effect.convertResponseToProjectDomain out stringTypeTeamID,
       Effect.StateSet result]⟩

/-! ## `Client.ListDNSRecords` -/

/-- A call `ListDNSRecords` makes to code outside `dns_record_list.go`.  `Q` is the type
`*http.Request`. -/
inductive HTTPCall (Q : Type) where
  | NewRequestWithContext (method url body : String)
  | doRequest (req : Q)
deriving DecidableEq, Repr

/-- The client as `ListDNSRecords` uses it: the field `baseURL`, the answer of
`http.NewRequestWithContext(ctx, method, url, strings.NewReader(body))`, and the answer of
`c.doRequest(req, &dr)`, which is the decoded `dr.Records` together with the error.
`D` is the type `DNSRecord`. -/
structure Client (Q D : Type) where
  baseURL : String
  NewRequestWithContext : String → String → String → Except GoError Q
  doRequest : Q → List D × Option GoError

/-- The result `(r, err)` of `ListDNSRecords` and the calls it made, in order. -/
structure ListOutcome (Q D : Type) where
  r : List D
  err : Option GoError
  Calls : List (HTTPCall Q)
deriving DecidableEq

/-- The method `Client.ListDNSRecords`. -/
def ListDNSRecords {Q D : Type} (c : Client Q D) (domain teamID : String) : ListOutcome Q D :=
  let url := c.baseURL ++ "/v4/domains/" ++ domain ++ "/records?limit=100"
  let url := if teamID ≠ "" then url ++ "&teamId=" ++ teamID else url
  match c.NewRequestWithContext "GET" url "" with
  | Except.error err => ⟨[], some err, [HTTPCall.NewRequestWithContext "GET" url ""]⟩
  | Except.ok req =>
    let dr := c.doRequest req
    ⟨dr.1, dr.2, [HTTPCall.NewRequestWithContext "GET" url "", HTTPCall.doRequest req]⟩

/-! ## The identifier codec of the specification -/

/-- The encoder as the specification words it (section 4.2): join the present components
in the order team, parent, key with the delimiter, leaving the team out when it is absent.
The source has no encoder of its own; this definition follows the specification. -/
def specEncode (team : Option String) (parent key : String) : String :=
  match team with
  | some t => t ++ "/" ++ parent ++ "/" ++ key
  | none => parent ++ "/" ++ key

/-- Go `strings.Contains`: `sub` occurs in `s` as a contiguous run. -/
def stringsContains (s sub : String) : Prop :=
  sub.data <:+: s.data

instance (s sub : String) : Decidable (stringsContains s sub) := by
  unfold stringsContains; infer_instance

/-! ## Sample collaborators, used to evaluate the controller on concrete inputs -/

/-- A remote failure classified as not found: an `APIError` with status code 404. -/
def notFoundError : GoError :=
  ⟨"not_found - The domain was not found", some ⟨404⟩⟩

/-- A remote failure that is not a 404: an `APIError` with status code 500. -/
def serverError : GoError :=
  ⟨"internal_error - Try again later", some ⟨500⟩⟩

/-- A state converter that copies the team scope it is handed into the `TeamID` field and
the response, a domain name, into `ID` and `Domain`. -/
def sampleConvert (out : String) (teamID : TypesString) : ProjectDomain :=
  { ProjectID := {}, TeamID := teamID, ID := { Value := out }, Domain := { Value := out },
    Redirect := { Null := true }, RedirectStatusCode := { Null := true },
    GitBranch := { Null := true } }

/-- A remote service on which every domain is gone: both calls fail with a 404. -/
def goneCollaborators : Collaborators String where
  GetProjectDomain := fun _ _ _ => Except.error notFoundError
  DeleteProjectDomain := fun _ _ _ => some notFoundError
  convertResponseToProjectDomain := sampleConvert
  StateSet := fun _ => []

/-- A remote service that fails every call with a 500. -/
def failingCollaborators : Collaborators String where
  GetProjectDomain := fun _ _ _ => Except.error serverError
  DeleteProjectDomain := fun _ _ _ => some serverError
  convertResponseToProjectDomain := sampleConvert
  StateSet := fun _ => []

/-- A remote service that answers every fetch, echoing the domain it was asked for. -/
def echoCollaborators : Collaborators String where
  GetProjectDomain := fun _ domain _ => Except.ok domain
  DeleteProjectDomain := fun _ _ _ => none
  convertResponseToProjectDomain := sampleConvert
  StateSet := fun _ => []

/-- A persisted state for the domain `example.com` of project `proj_1`, without team. -/
def sampleRequest : StateRequest where
  State :=
    { ProjectID := { Value := "proj_1" }, TeamID := { Null := true },
      ID := { Value := "example.com" }, Domain := { Value := "example.com" },
      Redirect := { Null := true }, RedirectStatusCode := { Null := true },
      GitBranch := { Null := true } }
  GetDiagnostics := []

/-- An HTTP client that builds every request, keeping its URL, and answers with one
record. -/
def sampleClient : Client String String where
  baseURL := "https://api.vercel.com"
  NewRequestWithContext := fun _ url _ => Except.ok url
  doRequest := fun _ => (["rec_1"], none)

/-- An HTTP client that cannot build a request. -/
def brokenClient : Client String String where
  baseURL := "https://api.vercel.com"
  NewRequestWithContext := fun _ _ _ => Except.error serverError
  doRequest := fun _ => (["rec_1"], none)

/-! ## Facts about `strings.Split` -/

theorem countByte_le_length (c : Char) (s : List Char) : countByte c s ≤ s.length := by
  induction s with
  | nil => simp [countByte]
  | cons x xs ih =>
    simp only [countByte, List.length_cons]
    split <;> omega

theorem genSplit_eq_loop (s : List Char) (c : Char) :
    genSplit s c = genSplitLoop c (countByte c s) s := by
  have h := countByte_le_length c s
  simp only [genSplit]
  congr 1
  omega

theorem indexByte_of_not_mem (c : Char) (s : List Char) (h : c ∉ s) : indexByte c s = none := by
  induction s with
  | nil => rfl
  | cons x xs ih =>
    simp only [List.mem_cons, not_or] at h
    have hx : ¬ x = c := fun e => h.1 e.symm
    simp [indexByte, hx, ih h.2]

theorem countByte_of_not_mem (c : Char) (s : List Char) (h : c ∉ s) : countByte c s = 0 := by
  induction s with
  | nil => rfl
  | cons x xs ih =>
    simp only [List.mem_cons, not_or] at h
    have hx : ¬ x = c := fun e => h.1 e.symm
    simp [countByte, hx, ih h.2]

theorem indexByte_append_cons (c : Char) (a b : List Char) (h : c ∉ a) :
    indexByte c (a ++ c :: b) = some a.length := by
  induction a with
  | nil => simp [indexByte]
  | cons x xs ih =>
    simp only [List.mem_cons, not_or] at h
    have hx : ¬ x = c := fun e => h.1 e.symm
    simp [indexByte, hx, ih h.2]

theorem countByte_append_cons (c : Char) (a b : List Char) (h : c ∉ a) :
    countByte c (a ++ c :: b) = countByte c b + 1 := by
  induction a with
  | nil => simp [countByte]; omega
  | cons x xs ih =>
    simp only [List.mem_cons, not_or] at h
    have hx : ¬ x = c := fun e => h.1 e.symm
    simp [countByte, hx, ih h.2]

/-- A string without the separator is returned whole, as the only part. -/
theorem genSplit_of_not_mem (c : Char) (a : List Char) (h : c ∉ a) : genSplit a c = [a] := by
  rw [genSplit_eq_loop, countByte_of_not_mem c a h]
  rfl

/-- The first part ends at the first separator; the rest is split in the same way. -/
theorem genSplit_append_cons (c : Char) (a b : List Char) (h : c ∉ a) :
    genSplit (a ++ c :: b) c = a :: genSplit b c := by
  rw [genSplit_eq_loop, genSplit_eq_loop, countByte_append_cons c a b h]
  simp [genSplitLoop, indexByte_append_cons c a b h]

/-- Induction along the separators of a string. -/
theorem sep_induction (c : Char) (P : List Char → Prop) (h0 : ∀ s, c ∉ s → P s)
    (h1 : ∀ a b, c ∉ a → P b → P (a ++ c :: b)) : ∀ s, P s := by
  have key : ∀ n, ∀ s : List Char, s.length ≤ n → P s := by
    intro n
    induction n with
    | zero =>
      intro s hs
      have : s = [] := List.length_eq_zero.1 (Nat.le_zero.1 hs)
      subst this
      exact h0 [] (by simp)
    | succ n ih =>
      intro s hs
      by_cases h : c ∈ s
      · obtain ⟨a, b, e, ha⟩ := List.eq_append_cons_of_mem h
        subst e
        refine h1 a b ha (ih b ?_)
        simp only [List.length_append, List.length_cons] at hs
        omega
      · exact h0 s h
  exact fun s => key s.length s (Nat.le_refl _)

/-- The number of parts is one more than the number of separators. -/
theorem genSplit_length (c : Char) (s : List Char) :
    (genSplit s c).length = countByte c s + 1 := by
  induction s using sep_induction c with
  | h0 s h => rw [genSplit_of_not_mem c s h, countByte_of_not_mem c s h]; rfl
  | h1 a b ha ih =>
    rw [genSplit_append_cons c a b ha, countByte_append_cons c a b ha, List.length_cons, ih]

/-- No part contains the separator. -/
theorem genSplit_not_mem (c : Char) (s : List Char) : ∀ p ∈ genSplit s c, c ∉ p := by
  induction s using sep_induction c with
  | h0 s h =>
    rw [genSplit_of_not_mem c s h]
    intro p hp
    rw [List.mem_singleton] at hp
    rw [hp]; exact h
  | h1 a b ha ih =>
    rw [genSplit_append_cons c a b ha]
    intro p hp
    rcases List.mem_cons.1 hp with hp | hp
    · rw [hp]; exact ha
    · exact ih p hp

theorem genSplit_ne_nil (c : Char) (s : List Char) : genSplit s c ≠ [] := by
  intro h
  have := genSplit_length c s
  rw [h] at this
  simp at this

/-- Joining the parts with the separator gives the string back. -/
theorem genSplit_intercalate (c : Char) (s : List Char) :
    List.intercalate [c] (genSplit s c) = s := by
  induction s using sep_induction c with
  | h0 s h => rw [genSplit_of_not_mem c s h]; simp [List.intercalate]
  | h1 a b ha ih =>
    rw [genSplit_append_cons c a b ha]
    cases hb : genSplit b c with
    | nil => exact absurd hb (genSplit_ne_nil c b)
    | cons x xs =>
      rw [hb] at ih
      conv_rhs => rw [← ih]
      simp [List.intercalate]
/-- The number of parts `strings.Split` returns is one more than the number of
separators in the string. -/
theorem stringsSplit_length (s : String) (c : Char) :
    (stringsSplit s c).length = countByte c s.data + 1 := by
  simp [stringsSplit, genSplit_length]

/-- A string without the separator has exactly one part, itself. -/
theorem stringsSplit_of_not_mem (s : String) (c : Char) (h : c ∉ s.data) :
    stringsSplit s c = [s] := by
  simp [stringsSplit, genSplit_of_not_mem c s.data h]

theorem stringsSplit_two (p k : String) (hp : '/' ∉ p.data) (hk : '/' ∉ k.data) :
    stringsSplit (p ++ "/" ++ k) '/' = [p, k] := by
  have e : (p ++ "/" ++ k).data = p.data ++ '/' :: k.data := by
    simp [String.data_append]
  simp [stringsSplit, e, genSplit_append_cons _ _ _ hp, genSplit_of_not_mem _ _ hk]

theorem stringsSplit_three (t p k : String) (ht : '/' ∉ t.data) (hp : '/' ∉ p.data)
    (hk : '/' ∉ k.data) : stringsSplit (t ++ "/" ++ p ++ "/" ++ k) '/' = [t, p, k] := by
  have e : (t ++ "/" ++ p ++ "/" ++ k).data = t.data ++ '/' :: (p.data ++ '/' :: k.data) := by
    simp [String.data_append]
  simp [stringsSplit, e, genSplit_append_cons _ _ _ ht, genSplit_append_cons _ _ _ hp,
    genSplit_of_not_mem _ _ hk]

theorem splitProjectDomainID_of_two (s a b : String) (h : stringsSplit s '/' = [a, b]) :
    splitProjectDomainID s = ("", a, b, true) := by
  simp [splitProjectDomainID, h]

theorem splitProjectDomainID_of_three (s a b c : String)
    (h : stringsSplit s '/' = [a, b, c]) : splitProjectDomainID s = (a, b, c, true) := by
  simp [splitProjectDomainID, h]

theorem splitProjectDomainID_of_other (s : String) (h2 : (stringsSplit s '/').length ≠ 2)
    (h3 : (stringsSplit s '/').length ≠ 3) : splitProjectDomainID s = ("", "", "", false) := by
  simp [splitProjectDomainID, h2, h3]

theorem splitProjectDomainID_ok_iff (s : String) :
    (splitProjectDomainID s).2.2.2 = true ↔
      (stringsSplit s '/').length = 2 ∨ (stringsSplit s '/').length = 3 := by
  unfold splitProjectDomainID
  simp only
  split
  · simp_all
  · split
    · simp_all
    · simp_all

/-! ## The identifier codec: claims C1, C2, C3 -/

/-- C1: when splitting the id on the slash gives exactly two parts, `splitProjectDomainID`
returns an empty team id, the two parts as project id and domain, and `ok = true`; when it
gives exactly three parts, it returns them as team id, project id and domain with
`ok = true`.  The two ids of the specification's scenario decode as it says. -/
theorem splitProjectDomainID_parts :
    (∀ s a b : String, stringsSplit s '/' = [a, b] →
      splitProjectDomainID s = ("", a, b, true)) ∧
    (∀ s a b c : String, stringsSplit s '/' = [a, b, c] →
      splitProjectDomainID s = (a, b, c, true)) ∧
    splitProjectDomainID "team_a/proj_1/example.com"
      = ("team_a", "proj_1", "example.com", true) ∧
    splitProjectDomainID "proj_1/example.com" = ("", "proj_1", "example.com", true) :=
  ⟨splitProjectDomainID_of_two, splitProjectDomainID_of_three, by decide, by decide⟩

theorem splitProjectDomainID_parts_witness :
    stringsSplit "p/d.io" '/' = ["p", "d.io"] ∧
    splitProjectDomainID "p/d.io" = ("", "p", "d.io", true) ∧
    stringsSplit "t/p/d.io" '/' = ["t", "p", "d.io"] ∧
    splitProjectDomainID "t/p/d.io" = ("t", "p", "d.io", true) :=
  ⟨by decide, splitProjectDomainID_parts.1 "p/d.io" "p" "d.io" (by decide),
   by decide, splitProjectDomainID_parts.2.1 "t/p/d.io" "t" "p" "d.io" (by decide)⟩

/-- C2: when the number of slash-separated parts of the id is neither 2 nor 3,
`splitProjectDomainID` returns `ok = false` with three empty components; `ok = true` is
returned only when the number of parts is 2 or 3.  Every string without a slash, the empty
string among them, has one part, and `a/b/c/d` has four, so all of these are rejected. -/
theorem splitProjectDomainID_invalid :
    (∀ s : String, (stringsSplit s '/').length ≠ 2 → (stringsSplit s '/').length ≠ 3 →
      splitProjectDomainID s = ("", "", "", false)) ∧
    (∀ s : String, (splitProjectDomainID s).2.2.2 = true →
      (stringsSplit s '/').length = 2 ∨ (stringsSplit s '/').length = 3) ∧
    (∀ s : String, '/' ∉ s.data →
      (stringsSplit s '/').length = 1 ∧ splitProjectDomainID s = ("", "", "", false)) ∧
    ((stringsSplit "" '/').length = 1 ∧ splitProjectDomainID "" = ("", "", "", false)) ∧
    ((stringsSplit "example.com" '/').length = 1 ∧
      splitProjectDomainID "example.com" = ("", "", "", false)) ∧
    ((stringsSplit "a/b/c/d" '/').length = 4 ∧
      splitProjectDomainID "a/b/c/d" = ("", "", "", false)) :=
  ⟨splitProjectDomainID_of_other, fun s h => (splitProjectDomainID_ok_iff s).1 h,
   fun s h => ⟨by rw [stringsSplit_of_not_mem s '/' h]; rfl,
     splitProjectDomainID_of_other s (by rw [stringsSplit_of_not_mem s '/' h]; simp)
       (by rw [stringsSplit_of_not_mem s '/' h]; simp)⟩,
   by decide, by decide, by decide⟩

theorem splitProjectDomainID_invalid_witness :
    splitProjectDomainID "a/b/c/d/e" = ("", "", "", false) ∧
    ((stringsSplit "p/d" '/').length = 2 ∨ (stringsSplit "p/d" '/').length = 3) ∧
    splitProjectDomainID "rec_1" = ("", "", "", false) :=
  ⟨splitProjectDomainID_invalid.1 "a/b/c/d/e" (by decide) (by decide),
   splitProjectDomainID_invalid.2.1 "p/d" (by decide),
   (splitProjectDomainID_invalid.2.2.1 "rec_1" (by decide)).2⟩

/-- C3: round trip.  When team, parent and key contain no slash, decoding the encoded
identifier with `splitProjectDomainID` gives `ok = true` and the same parent and key, and
the team itself, an absent team being returned as the empty string. -/
theorem splitProjectDomainID_specEncode (team : Option String) (parent key : String)
    (hteam : ∀ t, team = some t → '/' ∉ t.data) (hparent : '/' ∉ parent.data)
    (hkey : '/' ∉ key.data) :
    splitProjectDomainID (specEncode team parent key) = (team.getD "", parent, key, true) := by
  cases team with
  | none =>
    exact splitProjectDomainID_of_two _ _ _ (stringsSplit_two parent key hparent hkey)
  | some t =>
    exact splitProjectDomainID_of_three _ _ _ _
      (stringsSplit_three t parent key (hteam t rfl) hparent hkey)

theorem splitProjectDomainID_specEncode_witness :
    splitProjectDomainID (specEncode (some "team_a") "proj_1" "example.com")
      = ("team_a", "proj_1", "example.com", true) ∧
    splitProjectDomainID (specEncode none "proj_1" "example.com")
      = ("", "proj_1", "example.com", true) :=
  ⟨splitProjectDomainID_specEncode (some "team_a") "proj_1" "example.com"
      (by intro t h; cases h; decide) (by decide) (by decide),
   splitProjectDomainID_specEncode none "proj_1" "example.com"
      (by intro t h; cases h) (by decide) (by decide)⟩

/-! ## Facts about diagnostics -/

theorem Diagnostics.mem_Append (diags : Diagnostics) (ins : List Diagnostic) (x : Diagnostic) :
    x ∈ Diagnostics.Append diags ins ↔ x ∈ diags ∨ x ∈ ins := by
  induction ins generalizing diags with
  | nil => simp [Diagnostics.Append]
  | cons d rest ih =>
    have step : Diagnostics.Append diags (d :: rest)
        = Diagnostics.Append (if Diagnostics.Contains diags d then diags else diags ++ [d])
            rest := rfl
    rw [step, ih]
    by_cases h : d ∈ diags
    · simp only [Diagnostics.Contains, h, decide_True, if_true, List.mem_cons]
      constructor
      · rintro (h1 | h1)
        · exact Or.inl h1
        · exact Or.inr (Or.inr h1)
      · rintro (h1 | h1 | h1)
        · exact Or.inl h1
        · exact Or.inl (h1 ▸ h)
        · exact Or.inr h1
    · simp only [Diagnostics.Contains, h, decide_False, List.mem_append, List.mem_singleton,
        List.mem_cons]
      simp only [Bool.false_eq_true, if_false, List.mem_append, List.mem_singleton]
      tauto

theorem Diagnostics.HasError_iff (diags : Diagnostics) :
    Diagnostics.HasError diags = true ↔ ∃ d ∈ diags, d.Severity = Severity.Error := by
  simp [Diagnostics.HasError]

theorem Diagnostics.mem_AddError (diags : Diagnostics) (summary detail : String) :
    (⟨Severity.Error, summary, detail⟩ : Diagnostic) ∈ Diagnostics.AddError diags summary detail := by
  simp [Diagnostics.AddError, Diagnostics.mem_Append]

theorem Diagnostics.HasError_AddError (diags : Diagnostics) (summary detail : String) :
    Diagnostics.HasError (Diagnostics.AddError diags summary detail) = true :=
  (Diagnostics.HasError_iff _).2 ⟨_, Diagnostics.mem_AddError diags summary detail, rfl⟩

theorem Diagnostics.HasError_Append_false (diags : Diagnostics) (ins : List Diagnostic)
    (h1 : Diagnostics.HasError diags = false) (h2 : Diagnostics.HasError ins = false) :
    Diagnostics.HasError (Diagnostics.Append diags ins) = false := by
  rw [Bool.eq_false_iff] at *
  intro h
  obtain ⟨d, hd, he⟩ := (Diagnostics.HasError_iff _).1 h
  rcases (Diagnostics.mem_Append _ _ _).1 hd with hd | hd
  · exact h1 ((Diagnostics.HasError_iff _).2 ⟨d, hd, he⟩)
  · exact h2 ((Diagnostics.HasError_iff _).2 ⟨d, hd, he⟩)

/-- The text printed for a failed remote call names the domain, the project and the error. -/
theorem stringsContains_detail (pre dom mid proj sep err : String) :
    stringsContains (pre ++ dom ++ mid ++ proj ++ sep ++ err) dom ∧
    stringsContains (pre ++ dom ++ mid ++ proj ++ sep ++ err) proj ∧
    stringsContains (pre ++ dom ++ mid ++ proj ++ sep ++ err) err := by
  refine ⟨⟨pre.data, (mid ++ proj ++ sep ++ err).data, ?_⟩,
    ⟨(pre ++ dom ++ mid).data, (sep ++ err).data, ?_⟩,
    ⟨(pre ++ dom ++ mid ++ proj ++ sep).data, [], ?_⟩⟩ <;>
  simp [String.data_append]

/-! ## Remote failures in `Delete` and `Read`: claims C4, C5, C6 -/

/-- C4: idempotent delete.  When `DeleteProjectDomain` fails with an error in which
`errors.As` finds an `APIError` with status code 404, `Delete` returns with the diagnostics
it had after decoding the state, adding none of its own, whatever the text of the error;
so when the response and the decoding carried no error, the result carries none. -/
theorem Delete_notFound_ok {R : Type} (r : Collaborators R) (req : StateRequest)
    (diags0 : Diagnostics) (err : GoError) (apiErr : APIError)
    (hcall : r.DeleteProjectDomain req.State.ProjectID.Value req.State.Domain.Value
      req.State.TeamID.Value = some err)
    (hAs : err.AsAPIError = some apiErr) (h404 : apiErr.StatusCode = 404) :
    (Delete r req diags0).Diagnostics = Diagnostics.Append diags0 req.GetDiagnostics ∧
    (Diagnostics.HasError diags0 = false → Diagnostics.HasError req.GetDiagnostics = false →
      Diagnostics.HasError (Delete r req diags0).Diagnostics = false) := by
  have hnf : err.isNotFound = true := by simp [GoError.isNotFound, hAs, h404]
  have hd : (Delete r req diags0).Diagnostics
      = Diagnostics.Append diags0 req.GetDiagnostics := by
    unfold Delete
    simp only
    split
    · rfl
    · rw [hcall]
      simp [hnf]
  refine ⟨hd, fun h1 h2 => ?_⟩
  rw [hd]
  exact Diagnostics.HasError_Append_false _ _ h1 h2

theorem Delete_notFound_ok_witness :
    (Delete goneCollaborators sampleRequest []).Diagnostics = [] ∧
    Diagnostics.HasError (Delete goneCollaborators sampleRequest []).Diagnostics = false :=
  ⟨(Delete_notFound_ok goneCollaborators sampleRequest [] notFoundError ⟨404⟩ rfl rfl rfl).1,
   (Delete_notFound_ok goneCollaborators sampleRequest [] notFoundError ⟨404⟩ rfl rfl rfl).2
      rfl rfl⟩

/-- C5 on the code: for the sample state and a remote service that answers with a 404
`APIError`, `Read` does not yield Absent.  It reports the error diagnostic
`Error reading project domain`, and its only call is the fetch, so the resource is not
removed from state.  `Delete`, on the same state and the same 404, reports no error. -/
theorem Read_notFound_not_absent :
    goneCollaborators.GetProjectDomain sampleRequest.State.ProjectID.Value
        sampleRequest.State.Domain.Value sampleRequest.State.TeamID.Value
      = Except.error notFoundError ∧
    notFoundError.AsAPIError = some ⟨404⟩ ∧
    Diagnostics.HasError (Read goneCollaborators sampleRequest []).Diagnostics = true ∧
    (Read goneCollaborators sampleRequest []).Diagnostics
      = [⟨Severity.Error, "Error reading project domain",
          "Could not get domain example.com for project proj_1, unexpected error: "
            ++ notFoundError.Error⟩] ∧
    (Read goneCollaborators sampleRequest []).Effects
      = [Effect.GetProjectDomain "proj_1" "example.com" ""] ∧
    Effect.StateRemoveResource ∉ (Read goneCollaborators sampleRequest []).Effects ∧
    Diagnostics.HasError (Delete goneCollaborators sampleRequest []).Diagnostics = false :=
  ⟨rfl, rfl, by decide, by decide, by decide, by decide, by decide⟩

/-- C6: a remote failure that is not a 404 `APIError` is never swallowed.  When the state
decodes without error and the remote call fails with such an error, `Read` reports the
error diagnostic `Error reading project domain` and `Delete` the error diagnostic
`Error deleting project`; each detail contains the domain and the project id of the state
and the text of the error; the only call either method makes is the remote one, so no
state is set and the resource is not removed from state. -/
theorem remote_failure_reported {R : Type} (r : Collaborators R) (req : StateRequest)
    (diags0 : Diagnostics) (err : GoError)
    (hdec : Diagnostics.HasError (Diagnostics.Append diags0 req.GetDiagnostics) = false)
    (hnf : ¬ ∃ apiErr, err.AsAPIError = some apiErr ∧ apiErr.StatusCode = 404) :
    (r.GetProjectDomain req.State.ProjectID.Value req.State.Domain.Value
        req.State.TeamID.Value = Except.error err →
      (∃ d ∈ (Read r req diags0).Diagnostics,
        d.Severity = Severity.Error ∧ d.Summary = "Error reading project domain" ∧
        stringsContains d.Detail req.State.Domain.Value ∧
        stringsContains d.Detail req.State.ProjectID.Value ∧
        stringsContains d.Detail err.Error) ∧
      Diagnostics.HasError (Read r req diags0).Diagnostics = true ∧
      (Read r req diags0).Effects = [Effect.GetProjectDomain req.State.ProjectID.Value
        req.State.Domain.Value req.State.TeamID.Value] ∧
      Effect.StateRemoveResource ∉ (Read r req diags0).Effects ∧
      (∀ val, Effect.StateSet val ∉ (Read r req diags0).Effects)) ∧
    (r.DeleteProjectDomain req.State.ProjectID.Value req.State.Domain.Value
        req.State.TeamID.Value = some err →
      (∃ d ∈ (Delete r req diags0).Diagnostics,
        d.Severity = Severity.Error ∧ d.Summary = "Error deleting project" ∧
        stringsContains d.Detail req.State.Domain.Value ∧
        stringsContains d.Detail req.State.ProjectID.Value ∧
        stringsContains d.Detail err.Error) ∧
      Diagnostics.HasError (Delete r req diags0).Diagnostics = true ∧
      (Delete r req diags0).Effects = [Effect.DeleteProjectDomain req.State.ProjectID.Value
        req.State.Domain.Value req.State.TeamID.Value] ∧
      Effect.StateRemoveResource ∉ (Delete r req diags0).Effects ∧
      (∀ val, Effect.StateSet val ∉ (Delete r req diags0).Effects)) := by
  have hnf2 : err.isNotFound = false := by
    unfold GoError.isNotFound
    cases hA : err.AsAPIError with
    | none => rfl
    | some a =>
      have : ¬ a.StatusCode = 404 := fun h => hnf ⟨a, hA, h⟩
      simp [this]
  constructor
  · intro hcall
    have hR : Read r req diags0
        = ⟨Diagnostics.AddError (Diagnostics.Append diags0 req.GetDiagnostics)
            "Error reading project domain"
            ("Could not get domain " ++ req.State.Domain.Value ++ " for project "
              ++ req.State.ProjectID.Value ++ ", unexpected error: " ++ err.Error),
           [Effect.GetProjectDomain req.State.ProjectID.Value req.State.Domain.Value
              req.State.TeamID.Value]⟩ := by
      unfold Read
      simp only [hdec, hcall]
      simp
    rw [hR]
    refine ⟨⟨_, Diagnostics.mem_AddError _ _ _, rfl, rfl, ?_⟩,
      Diagnostics.HasError_AddError _ _ _, rfl, by simp, by simp⟩
    exact stringsContains_detail _ _ _ _ _ _
  · intro hcall
    have hD : Delete r req diags0
        = ⟨Diagnostics.AddError (Diagnostics.Append diags0 req.GetDiagnostics)
            "Error deleting project"
            ("Could not delete domain " ++ req.State.Domain.Value ++ " for project "
              ++ req.State.ProjectID.Value ++ ", unexpected error: " ++ err.Error),
           [Effect.DeleteProjectDomain req.State.ProjectID.Value req.State.Domain.Value
              req.State.TeamID.Value]⟩ := by
      unfold Delete
      simp only [hdec, hcall, hnf2]
      simp
    rw [hD]
    refine ⟨⟨_, Diagnostics.mem_AddError _ _ _, rfl, rfl, ?_⟩,
      Diagnostics.HasError_AddError _ _ _, rfl, by simp, by simp⟩
    exact stringsContains_detail _ _ _ _ _ _

theorem remote_failure_reported_witness :
    Diagnostics.HasError (Read failingCollaborators sampleRequest []).Diagnostics = true ∧
    Diagnostics.HasError (Delete failingCollaborators sampleRequest []).Diagnostics = true :=
  ⟨((remote_failure_reported failingCollaborators sampleRequest [] serverError rfl
      (by decide)).1 rfl).2.1,
   ((remote_failure_reported failingCollaborators sampleRequest [] serverError rfl
      (by decide)).2 rfl).2.1⟩

/-! ## `ImportState`: claims C7, C8, C9 -/

/-- The body of `ImportState` once the result of `splitProjectDomainID` is known. -/
theorem ImportState_of_split {R : Type} (r : Collaborators R) (id : String)
    (diags0 : Diagnostics) (t p d : String) (ok : Bool)
    (h : splitProjectDomainID id = (t, p, d, ok)) :
    ImportState r id diags0 =
      match r.GetProjectDomain p d t with
      | Except.error err =>
        ⟨Diagnostics.AddError
            (if !ok then
              Diagnostics.AddError diags0 "Error importing project domain"
                (importErrorDetail id)
            else diags0)
            "Error reading project domain"
            ("Could not get domain " ++ d ++ " for project " ++ p
              ++ ", unexpected error: " ++ err.Error),
          [Effect.GetProjectDomain p d t]⟩
      | Except.ok out =>
        ⟨Diagnostics.Append
            (if !ok then
              Diagnostics.AddError diags0 "Error importing project domain"
                (importErrorDetail id)
            else diags0)
            (r.StateSet (r.convertResponseToProjectDomain out
              (if t = "" then { Value := t, Null := true } else { Value := t }))),
          [Effect.GetProjectDomain p d t,
           Effect.convertResponseToProjectDomain out
             (if t = "" then { Value := t, Null := true } else { Value := t }),
           Effect.StateSet (r.convertResponseToProjectDomain out
             (if t = "" then { Value := t, Null := true } else { Value := t }))]⟩ := by
  unfold ImportState
  rw [h]

/-- The result of `splitProjectDomainID` when the id has two or three parts. -/
theorem splitProjectDomainID_of_valid (id : String)
    (h : (stringsSplit id '/').length = 2 ∨ (stringsSplit id '/').length = 3) :
    ∃ t p d, splitProjectDomainID id = (t, p, d, true) := by
  rcases h with h | h
  · match hs : stringsSplit id '/', h with
    | [a, b], _ => exact ⟨_, _, _, splitProjectDomainID_of_two id a b hs⟩
  · match hs : stringsSplit id '/', h with
    | [a, b, c], _ => exact ⟨_, _, _, splitProjectDomainID_of_three id a b c hs⟩

/-- C7 on the code: for the id `a/b/c/d`, which has four parts, `ImportState` does not
stop after reporting the invalid id.  Whatever the collaborators answer, it fetches with
`GetProjectDomain` and three empty arguments, and when that fetch is answered, as by the
sample service, it goes on to convert the answer and to set the state. -/
theorem ImportState_invalid_id_falls_through :
    splitProjectDomainID "a/b/c/d" = ("", "", "", false) ∧
    (∀ (R : Type) (r : Collaborators R) (diags0 : Diagnostics),
      Effect.GetProjectDomain "" "" "" ∈ (ImportState r "a/b/c/d" diags0).Effects) ∧
    (ImportState echoCollaborators "a/b/c/d" []).Effects
      = [Effect.GetProjectDomain "" "" "",
         Effect.convertResponseToProjectDomain "" { Value := "", Null := true },
         Effect.StateSet (sampleConvert "" { Value := "", Null := true })] := by
  refine ⟨by decide, ?_, by decide⟩
  intro R r diags0
  rw [ImportState_of_split r "a/b/c/d" diags0 "" "" "" false (by decide)]
  cases r.GetProjectDomain "" "" "" <;> simp

/-- C8: for an id whose number of slash-separated parts is neither 2 nor 3, the diagnostics
of `ImportState` contain the error `Error importing project domain`, whose detail contains
the id as given and both accepted formats, `"team_id/project_id/domain"` and
`"project_id/domain"`; for an id with 2 or 3 parts `ImportState` adds no such error: a
diagnostic with that summary in its result was there on entry or came from
`resp.State.Set`. -/
theorem ImportState_invalid_id_error {R : Type} (r : Collaborators R) (id : String)
    (diags0 : Diagnostics) :
    ((stringsSplit id '/').length ≠ 2 → (stringsSplit id '/').length ≠ 3 →
      ∃ d ∈ (ImportState r id diags0).Diagnostics,
        d.Severity = Severity.Error ∧ d.Summary = "Error importing project domain" ∧
        d.Detail = "Invalid id '" ++ id ++ "' specified. should be in format "
          ++ "\"team_id/project_id/domain\"" ++ " or " ++ "\"project_id/domain\"" ∧
        stringsContains d.Detail id ∧
        stringsContains d.Detail "\"team_id/project_id/domain\"" ∧
        stringsContains d.Detail "\"project_id/domain\"") ∧
    ((stringsSplit id '/').length = 2 ∨ (stringsSplit id '/').length = 3 →
      ∀ d ∈ (ImportState r id diags0).Diagnostics,
        d.Summary = "Error importing project domain" →
          d ∈ diags0 ∨ ∃ val, d ∈ r.StateSet val) := by
  constructor
  · intro h2 h3
    have hmem : (⟨Severity.Error, "Error importing project domain", importErrorDetail id⟩ :
        Diagnostic) ∈ (ImportState r id diags0).Diagnostics := by
      rw [ImportState_of_split r id diags0 "" "" "" false
        (splitProjectDomainID_of_other id h2 h3)]
      cases r.GetProjectDomain "" "" "" with
      | error err =>
        simp only [Bool.not_false, if_true, Diagnostics.AddError]
        rw [Diagnostics.mem_Append, Diagnostics.mem_Append]
        exact Or.inl (Or.inr (List.mem_singleton.2 rfl))
      | ok out =>
        simp only [Bool.not_false, if_true, Diagnostics.AddError]
        rw [Diagnostics.mem_Append, Diagnostics.mem_Append]
        exact Or.inl (Or.inr (List.mem_singleton.2 rfl))
    refine ⟨_, hmem, rfl, rfl, ?_, ?_, ?_, ?_⟩
    · apply String.ext
      simp [importErrorDetail, String.data_append]
    · exact ⟨"Invalid id '".data, ("' specified. should be in format "
        ++ "\"team_id/project_id/domain\"" ++ " or " ++ "\"project_id/domain\"").data,
        by simp [importErrorDetail, String.data_append]⟩
    · exact ⟨("Invalid id '" ++ id ++ "' specified. should be in format ").data,
        (" or " ++ "\"project_id/domain\"").data,
        by simp [importErrorDetail, String.data_append]⟩
    · exact ⟨("Invalid id '" ++ id ++ "' specified. should be in format "
        ++ "\"team_id/project_id/domain\"" ++ " or ").data, [],
        by simp [importErrorDetail, String.data_append]⟩
  · intro h d hd hsum
    obtain ⟨t, p, dom, hs⟩ := splitProjectDomainID_of_valid id h
    rw [ImportState_of_split r id diags0 t p dom true hs] at hd
    cases hg : r.GetProjectDomain p dom t with
    | error err =>
      rw [hg] at hd
      simp only [Bool.not_true, Bool.false_eq_true, if_false, Diagnostics.AddError] at hd
      rcases (Diagnostics.mem_Append _ _ _).1 hd with hd | hd
      · exact Or.inl hd
      · rw [List.mem_singleton] at hd
        rw [hd] at hsum
        simp at hsum
    | ok out =>
      rw [hg] at hd
      simp only [Bool.not_true, Bool.false_eq_true, if_false] at hd
      rcases (Diagnostics.mem_Append _ _ _).1 hd with hd | hd
      · exact Or.inl hd
      · exact Or.inr ⟨_, hd⟩

theorem ImportState_invalid_id_error_witness :
    (∃ d ∈ (ImportState echoCollaborators "a/b/c/d" []).Diagnostics,
        d.Severity = Severity.Error ∧ d.Summary = "Error importing project domain" ∧
        d.Detail = "Invalid id '" ++ "a/b/c/d" ++ "' specified. should be in format "
          ++ "\"team_id/project_id/domain\"" ++ " or " ++ "\"project_id/domain\"" ∧
        stringsContains d.Detail "a/b/c/d" ∧
        stringsContains d.Detail "\"team_id/project_id/domain\"" ∧
        stringsContains d.Detail "\"project_id/domain\"") ∧
    (∀ d ∈ (ImportState echoCollaborators "proj_1/example.com" []).Diagnostics,
        d.Summary = "Error importing project domain" →
          d ∈ ([] : Diagnostics) ∨ ∃ val, d ∈ echoCollaborators.StateSet val) :=
  ⟨(ImportState_invalid_id_error echoCollaborators "a/b/c/d" []).1 (by decide) (by decide),
   (ImportState_invalid_id_error echoCollaborators "proj_1/example.com" []).2
      (Or.inl (by decide))⟩

/-- C9: when the id splits and the fetch succeeds, the team scope `ImportState` hands to
the state converter is null, with an empty value, for an id of two parts, and is the first
part, not null, for an id of three parts whose first part is not empty.  In both cases the
state set is what the converter returns for that team scope. -/
theorem ImportState_team_scope {R : Type} (r : Collaborators R) (id : String)
    (diags0 : Diagnostics) (out : R) :
    (∀ p d : String, stringsSplit id '/' = [p, d] →
      r.GetProjectDomain p d "" = Except.ok out →
      (ImportState r id diags0).Effects
        = [Effect.GetProjectDomain p d "",
           Effect.convertResponseToProjectDomain out
             { Unknown := false, Null := true, Value := "" },
           Effect.StateSet (r.convertResponseToProjectDomain out
             { Unknown := false, Null := true, Value := "" })]) ∧
    (∀ t p d : String, stringsSplit id '/' = [t, p, d] → t ≠ "" →
      r.GetProjectDomain p d t = Except.ok out →
      (ImportState r id diags0).Effects
        = [Effect.GetProjectDomain p d t,
           Effect.convertResponseToProjectDomain out
             { Unknown := false, Null := false, Value := t },
           Effect.StateSet (r.convertResponseToProjectDomain out
             { Unknown := false, Null := false, Value := t })]) := by
  constructor
  · intro p d hs hg
    rw [ImportState_of_split r id diags0 "" p d true (splitProjectDomainID_of_two id p d hs),
      hg]
    simp
  · intro t p d hs ht hg
    rw [ImportState_of_split r id diags0 t p d true
      (splitProjectDomainID_of_three id t p d hs), hg]
    simp [ht]

theorem ImportState_team_scope_witness :
    (ImportState echoCollaborators "proj_1/example.com" []).Effects
      = [Effect.GetProjectDomain "proj_1" "example.com" "",
         Effect.convertResponseToProjectDomain "example.com"
           { Unknown := false, Null := true, Value := "" },
         Effect.StateSet (sampleConvert "example.com"
           { Unknown := false, Null := true, Value := "" })] ∧
    (ImportState echoCollaborators "team_a/proj_1/example.com" []).Effects
      = [Effect.GetProjectDomain "proj_1" "example.com" "team_a",
         Effect.convertResponseToProjectDomain "example.com"
           { Unknown := false, Null := false, Value := "team_a" },
         Effect.StateSet (sampleConvert "example.com"
           { Unknown := false, Null := false, Value := "team_a" })] :=
  ⟨(ImportState_team_scope echoCollaborators "proj_1/example.com" [] "example.com").1
      "proj_1" "example.com" (by decide) rfl,
   (ImportState_team_scope echoCollaborators "team_a/proj_1/example.com" []
      "example.com").2 "team_a" "proj_1" "example.com" (by decide) (by decide) rfl⟩

/-! ## `ListDNSRecords`: claim C10 -/

/-- C10: `ListDNSRecords` builds exactly one request, a `GET` with an empty body, for the
URL made of the base URL, `/v4/domains/`, the domain and `/records?limit=100`, with nothing
after it when the team id is empty and with `&teamId=` and the team id after it when the
team id is not empty.  When the request cannot be built it returns no records and that
error, and sends nothing; otherwise it sends that very request with `doRequest`, once, and
returns the records and the error `doRequest` gives. -/
theorem ListDNSRecords_url {Q D : Type} (c : Client Q D) (domain teamID : String) :
    (teamID = "" →
      (∀ err, c.NewRequestWithContext "GET"
          (c.baseURL ++ "/v4/domains/" ++ domain ++ "/records?limit=100") ""
            = Except.error err →
        ListDNSRecords c domain teamID
          = ⟨[], some err,
             [HTTPCall.NewRequestWithContext "GET"
               (c.baseURL ++ "/v4/domains/" ++ domain ++ "/records?limit=100") ""]⟩) ∧
      (∀ req, c.NewRequestWithContext "GET"
          (c.baseURL ++ "/v4/domains/" ++ domain ++ "/records?limit=100") ""
            = Except.ok req →
        ListDNSRecords c domain teamID
          = ⟨(c.doRequest req).1, (c.doRequest req).2,
             [HTTPCall.NewRequestWithContext "GET"
               (c.baseURL ++ "/v4/domains/" ++ domain ++ "/records?limit=100") "",
              HTTPCall.doRequest req]⟩)) ∧
    (teamID ≠ "" →
      (∀ err, c.NewRequestWithContext "GET"
          (c.baseURL ++ "/v4/domains/" ++ domain ++ "/records?limit=100"
            ++ "&teamId=" ++ teamID) "" = Except.error err →
        ListDNSRecords c domain teamID
          = ⟨[], some err,
             [HTTPCall.NewRequestWithContext "GET"
               (c.baseURL ++ "/v4/domains/" ++ domain ++ "/records?limit=100"
                 ++ "&teamId=" ++ teamID) ""]⟩) ∧
      (∀ req, c.NewRequestWithContext "GET"
          (c.baseURL ++ "/v4/domains/" ++ domain ++ "/records?limit=100"
            ++ "&teamId=" ++ teamID) "" = Except.ok req →
        ListDNSRecords c domain teamID
          = ⟨(c.doRequest req).1, (c.doRequest req).2,
             [HTTPCall.NewRequestWithContext "GET"
               (c.baseURL ++ "/v4/domains/" ++ domain ++ "/records?limit=100"
                 ++ "&teamId=" ++ teamID) "",
              HTTPCall.doRequest req]⟩)) := by
  constructor
  · intro h
    subst h
    constructor
    · intro err hb
      unfold ListDNSRecords
      simp only [ne_eq, not_true_eq_false, if_false, hb]
    · intro req hb
      unfold ListDNSRecords
      simp only [ne_eq, not_true_eq_false, if_false, hb]
  · intro h
    constructor
    · intro err hb
      unfold ListDNSRecords
      simp only [ne_eq, h, not_false_eq_true, if_true, hb]
    · intro req hb
      unfold ListDNSRecords
      simp only [ne_eq, h, not_false_eq_true, if_true, hb]

theorem ListDNSRecords_url_witness :
    ListDNSRecords sampleClient "example.com" ""
      = ⟨["rec_1"], none,
         [HTTPCall.NewRequestWithContext "GET"
            "https://api.vercel.com/v4/domains/example.com/records?limit=100" "",
          HTTPCall.doRequest
            "https://api.vercel.com/v4/domains/example.com/records?limit=100"]⟩ ∧
    ListDNSRecords sampleClient "example.com" "team_a"
      = ⟨["rec_1"], none,
         [HTTPCall.NewRequestWithContext "GET"
            "https://api.vercel.com/v4/domains/example.com/records?limit=100&teamId=team_a"
            "",
          HTTPCall.doRequest
            "https://api.vercel.com/v4/domains/example.com/records?limit=100&teamId=team_a"]⟩ ∧
    ListDNSRecords brokenClient "example.com" "team_a"
      = ⟨[], some serverError,
         [HTTPCall.NewRequestWithContext "GET"
            "https://api.vercel.com/v4/domains/example.com/records?limit=100&teamId=team_a"
            ""]⟩ :=
  ⟨((ListDNSRecords_url sampleClient "example.com" "").1 rfl).2 _ rfl,
   ((ListDNSRecords_url sampleClient "example.com" "team_a").2 (by decide)).2 _ rfl,
   ((ListDNSRecords_url brokenClient "example.com" "team_a").2 (by decide)).1 _ rfl⟩

end Vercel
